import Mathlib

/-!
Verification of the queued-run coordinator daemon
(`python_modules/dagster/dagster/daemon/run_coordinator/queued_run_coordinator_daemon.py`).

The daemon performs, per tick (`run_iteration`):
count in-progress runs, compute remaining capacity, short-circuit when the
capacity is not positive, otherwise fetch queued runs (newest-first, reversed
once to oldest-first), stably sort them by descending priority, take the first
`max_runs_to_launch`, and for each selected run acquire a scoped pipeline
handle, record a dequeue event, request a launch, and release the handle.

We embed the data model and the tick as pure Lean functions; the effects of a
tick are reified as a trace of `TickEvent`s.
-/

namespace QueuedRunCoordinator

/-- Modelled from the spec: the single reserved priority tag key.  The constant
`PRIORITY_TAG` lives in `dagster.core.storage.tags`, outside the given sources;
its concrete value is irrelevant to the logic, only that it is one fixed key. -/
def PRIORITY_TAG : String := "dagster/priority"

/-- A run as the daemon observes it: identity, pipeline name and tags
(a mapping from string keys to string values, embedded as an association
list looked up by first match, as a Python dict with distinct keys). -/
structure Run where
  run_id : String
  pipeline_name : String
  tags : List (String × String)
deriving DecidableEq, Repr

/-- Whitespace characters stripped by Python `int(str)` before parsing. -/
def isPySpace (c : Char) : Bool :=
  c = ' ' || c = '\t' || c = '\n' || c = '\x0d' || c = '\x0b' || c = '\x0c'

/-- Parser state for the digit part of a Python integer literal:
nothing read yet, last char was a digit, or last char was an underscore. -/
inductive DigitState
  | start
  | digit
  | underscore
deriving DecidableEq, Repr

/-- Digits of a Python `int(str)` body: a nonempty digit string where single
underscores may appear between digits (`1_0` parses, `_1`, `1_`, `1__0` fail). -/
def pyDigits : List Char → Nat → DigitState → Option Nat
  | [], acc, DigitState.digit => some acc
  | [], _, _ => none
  | c :: rest, acc, st =>
    if c.isDigit then
      pyDigits rest (acc * 10 + (c.toNat - 48)) DigitState.digit
    else if c = '_' then
      match st with
      | DigitState.digit => pyDigits rest acc DigitState.underscore
      | _ => none
    else none

/-- Model of Python `int(str)`: strip surrounding whitespace, allow one
optional sign, then parse the digit body; `none` models a raised
`ValueError`.  (Non-ASCII digit forms are out of scope of the model.) -/
def pyInt (s : String) : Option Int :=
  let cs := ((s.toList.dropWhile isPySpace).reverse.dropWhile isPySpace).reverse
  match cs with
  | '+' :: rest => (pyDigits rest 0 DigitState.start).map Int.ofNat
  | '-' :: rest => (pyDigits rest 0 DigitState.start).map (fun n => -(Int.ofNat n))
  | _ => (pyDigits cs 0 DigitState.start).map Int.ofNat

/-- `get_priority` from `_priority_sort`: look up the priority tag with
default `"0"`, parse it as an integer, and coerce a parse failure
(`ValueError`) to `0`. -/
def get_priority (run : Run) : Int :=
  let priority_tag_value := (run.tags.lookup PRIORITY_TAG).getD "0"
  match pyInt priority_tag_value with
  | some n => n
  | none => 0

/-- Stable insertion for a descending-by-priority order: `r` is placed before
the first element whose priority is not greater than that of `r` is allowed to
follow it, i.e. before the first element with priority not above, while ties
keep the earlier (already inserted later) element behind `r`. -/
def insertByPriority (r : Run) : List Run → List Run
  | [] => [r]
  | x :: xs =>
    if get_priority x ≤ get_priority r then r :: x :: xs
    else x :: insertByPriority r xs

/-- `_priority_sort`: Python `sorted(runs, key=get_priority, reverse=True)`,
a stable sort by descending priority.  A stable sort for a total preorder has
a unique result, so this insertion sort is extensionally the Python sort. -/
def _priority_sort (runs : List Run) : List Run :=
  match runs with
  | [] => []
  | r :: rest => insertByPriority r (_priority_sort rest)

/-- `_get_queued_runs`: query the store for queued runs (the store answers
newest-first) and reverse once for FIFO (oldest-first) order.  The store
answer is the parameter. -/
def _get_queued_runs (store_queued : List Run) : List Run :=
  store_queued.reverse

/-- Observable effects of one tick, in order of occurrence. -/
inductive TickEvent
  | queueQueried
  | acquired (run_id : String)
  | dequeueEvent (run_id : String) (pipeline_name : String)
  | launchRequested (run_id : String)
  | released (run_id : String)
deriving DecidableEq, Repr

/-- The dispatch loop over the selected runs.  Per run, the Python `with`
block acquires the scoped pipeline handle, records the dequeue event, then
requests the launch; the handle is released when the block exits, whether
normally or by an exception.  A failing resolution raises before any handle
exists; a failing launch raises after release.  Either exception propagates
out of `run_iteration`, so the loop stops there. -/
def dispatchLoop (resolveFails launchFails : String → Bool) : List Run → List TickEvent
  | [] => []
  | run :: rest =>
    if resolveFails run.run_id then []
    else
      TickEvent.acquired run.run_id ::
      TickEvent.dequeueEvent run.run_id run.pipeline_name ::
      TickEvent.launchRequested run.run_id ::
      TickEvent.released run.run_id ::
      if launchFails run.run_id then []
      else dispatchLoop resolveFails launchFails rest

/-- `run_iteration`: one tick.  Inputs are the answers of the external
collaborators: `in_progress` is the count query result, `store_queued` is the
list query result (newest-first), and the two failure oracles say which runs
make resolution or launch raise.  The result is the trace of effects. -/
def run_iteration (max_concurrent_runs : Int) (in_progress : Nat)
    (store_queued : List Run) (resolveFails launchFails : String → Bool) :
    List TickEvent :=
  let max_runs_to_launch := max_concurrent_runs - in_progress
  if max_runs_to_launch ≤ 0 then []
  else
    let queued_runs := _get_queued_runs store_queued
    let sorted_runs := _priority_sort queued_runs
    TickEvent.queueQueried ::
      dispatchLoop resolveFails launchFails (sorted_runs.take max_runs_to_launch.toNat)

/-- The runs selected for dispatch in a tick, before any dispatch effect:
`sorted_runs[:max_runs_to_launch]` (empty when capacity is not positive). -/
def selected_runs (max_concurrent_runs : Int) (in_progress : Nat)
    (store_queued : List Run) : List Run :=
  let max_runs_to_launch := max_concurrent_runs - in_progress
  if max_runs_to_launch ≤ 0 then []
  else (_priority_sort (_get_queued_runs store_queued)).take max_runs_to_launch.toNat

/-- Run ids for which a launch was requested in a trace, in order. -/
def dispatchedIds (trace : List TickEvent) : List String :=
  trace.filterMap fun e =>
    match e with
    | TickEvent.launchRequested id => some id
    | _ => none

/-- Run ids for which a dequeue event was recorded in a trace, in order. -/
def dequeuedIds (trace : List TickEvent) : List String :=
  trace.filterMap fun e =>
    match e with
    | TickEvent.dequeueEvent id _ => some id
    | _ => none

/-- Concrete scenario run A: priority tag `"10"`. -/
def runA : Run := ⟨"A", "job_a", [(PRIORITY_TAG, "10")]⟩

/-- Concrete scenario run B: no priority tag. -/
def runB : Run := ⟨"B", "job_b", []⟩

/-- Concrete scenario run C: non-integer priority tag `"abc"`. -/
def runC : Run := ⟨"C", "job_c", [(PRIORITY_TAG, "abc")]⟩

/-- Concrete scenario run D: priority tag `"10"`. -/
def runD : Run := ⟨"D", "job_d", [(PRIORITY_TAG, "10")]⟩

/-- Two runs whose id and resolved priority agree; such runs are
interchangeable for the selection outcome. -/
def SameIdPriority (a b : Run) : Prop :=
  a.run_id = b.run_id ∧ get_priority a = get_priority b

/-- A priority tag choice that resolves to priority `0`: the tag is absent,
or literally `"0"`, or its value does not parse as an integer. -/
def ZeroPriorityTag (r : Run) : Prop :=
  r.tags.lookup PRIORITY_TAG = none
  ∨ r.tags.lookup PRIORITY_TAG = some "0"
  ∨ ∃ v, r.tags.lookup PRIORITY_TAG = some v ∧ pyInt v = none

/-! ### Helper lemmas about the sort -/

theorem insertByPriority_length (r : Run) (l : List Run) :
    (insertByPriority r l).length = l.length + 1 := by
  induction l with
  | nil => rfl
  | cons x xs ih =>
    simp only [insertByPriority]
    by_cases h : get_priority x ≤ get_priority r
    · simp [h]
    · simp [h, ih]

theorem _priority_sort_length (l : List Run) :
    (_priority_sort l).length = l.length := by
  induction l with
  | nil => rfl
  | cons r rest ih => simp [_priority_sort, insertByPriority_length, ih]

theorem insertByPriority_perm (r : Run) (l : List Run) :
    List.Perm (insertByPriority r l) (r :: l) := by
  induction l with
  | nil => exact List.Perm.refl _
  | cons x xs ih =>
    by_cases h : get_priority x ≤ get_priority r
    · rw [insertByPriority, if_pos h]
    · rw [insertByPriority, if_neg h]
      exact (ih.cons x).trans (List.Perm.swap r x xs)

theorem _priority_sort_perm (l : List Run) : List.Perm (_priority_sort l) l := by
  induction l with
  | nil => exact List.Perm.refl _
  | cons r rest ih =>
    exact (insertByPriority_perm r (_priority_sort rest)).trans (ih.cons r)

theorem filter_insertByPriority_eq (r : Run) (l : List Run) (p : Int)
    (hr : get_priority r = p) :
    (insertByPriority r l).filter (fun x => get_priority x == p)
      = r :: l.filter (fun x => get_priority x == p) := by
  induction l with
  | nil => simp [insertByPriority, List.filter_cons, hr]
  | cons x xs ih =>
    by_cases h : get_priority x ≤ get_priority r
    · rw [insertByPriority, if_pos h]
      simp [List.filter_cons, hr]
    · rw [insertByPriority, if_neg h]
      have hx : (get_priority x == p) = false := by
        rw [beq_eq_false_iff_ne]
        intro hxp
        exact h (by simp [hxp, hr])
      simp [List.filter_cons, hx, ih]

theorem filter_insertByPriority_ne (r : Run) (l : List Run) (p : Int)
    (hr : get_priority r ≠ p) :
    (insertByPriority r l).filter (fun x => get_priority x == p)
      = l.filter (fun x => get_priority x == p) := by
  induction l with
  | nil => simp [insertByPriority, List.filter_cons, hr]
  | cons x xs ih =>
    by_cases h : get_priority x ≤ get_priority r
    · rw [insertByPriority, if_pos h]
      simp [List.filter_cons, hr]
    · rw [insertByPriority, if_neg h]
      simp [List.filter_cons, ih]

theorem filter_priority_sort (l : List Run) (p : Int) :
    (_priority_sort l).filter (fun x => get_priority x == p)
      = l.filter (fun x => get_priority x == p) := by
  induction l with
  | nil => rfl
  | cons r rest ih =>
    by_cases hr : get_priority r = p
    · rw [_priority_sort, filter_insertByPriority_eq r _ p hr, ih]
      simp [List.filter_cons, hr]
    · rw [_priority_sort, filter_insertByPriority_ne r _ p hr, ih]
      simp [List.filter_cons, hr]

/-! ### Helper lemmas about the dispatch loop -/

theorem dispatchedIds_dispatchLoop_sublist (rf lf : String → Bool) (sel : List Run) :
    List.Sublist (dispatchedIds (dispatchLoop rf lf sel)) (sel.map Run.run_id) := by
  induction sel with
  | nil => simp [dispatchLoop, dispatchedIds]
  | cons run rest ih =>
    by_cases hr : rf run.run_id
    · rw [dispatchLoop, if_pos hr]
      simp [dispatchedIds]
    · rw [dispatchLoop, if_neg hr]
      by_cases hl : lf run.run_id
      · rw [if_pos hl]
        simp only [dispatchedIds, List.filterMap_cons, List.filterMap_nil, List.map_cons]
        exact (List.nil_sublist _).cons₂ run.run_id
      · rw [if_neg hl]
        simp only [dispatchedIds, List.filterMap_cons, List.map_cons]
        exact List.Sublist.cons₂ run.run_id ih

theorem dequeuedIds_dispatchLoop_sublist (rf lf : String → Bool) (sel : List Run) :
    List.Sublist (dequeuedIds (dispatchLoop rf lf sel)) (sel.map Run.run_id) := by
  induction sel with
  | nil => simp [dispatchLoop, dequeuedIds]
  | cons run rest ih =>
    by_cases hr : rf run.run_id
    · rw [dispatchLoop, if_pos hr]
      simp [dequeuedIds]
    · rw [dispatchLoop, if_neg hr]
      by_cases hl : lf run.run_id
      · rw [if_pos hl]
        simp only [dequeuedIds, List.filterMap_cons, List.filterMap_nil, List.map_cons]
        exact (List.nil_sublist _).cons₂ run.run_id
      · rw [if_neg hl]
        simp only [dequeuedIds, List.filterMap_cons, List.map_cons]
        exact List.Sublist.cons₂ run.run_id ih

theorem dequeue_before_launch_dispatchLoop (rf lf : String → Bool) (sel : List Run)
    (id : String) (h : TickEvent.launchRequested id ∈ dispatchLoop rf lf sel) :
    ∃ p, List.Sublist [TickEvent.dequeueEvent id p, TickEvent.launchRequested id]
      (dispatchLoop rf lf sel) := by
  induction sel with
  | nil => simp [dispatchLoop] at h
  | cons run rest ih =>
    by_cases hr : rf run.run_id
    · rw [dispatchLoop, if_pos hr] at h
      simp at h
    · rw [dispatchLoop, if_neg hr] at h ⊢
      by_cases hl : lf run.run_id
      · rw [if_pos hl] at h ⊢
        simp only [List.mem_cons, List.not_mem_nil, or_false] at h
        rcases h with h | h | h | h
        · exact absurd h (by simp)
        · exact absurd h (by simp)
        · rcases TickEvent.launchRequested.inj h.symm with rfl
          exact ⟨run.pipeline_name,
            List.Sublist.cons _ (List.Sublist.cons₂ _
              (List.Sublist.cons₂ _ (List.nil_sublist _)))⟩
        · exact absurd h (by simp)
      · rw [if_neg hl] at h ⊢
        simp only [List.mem_cons] at h
        rcases h with h | h | h | h | h
        · exact absurd h (by simp)
        · exact absurd h (by simp)
        · rcases TickEvent.launchRequested.inj h.symm with rfl
          exact ⟨run.pipeline_name,
            List.Sublist.cons _ (List.Sublist.cons₂ _
              (List.Sublist.cons₂ _ (List.nil_sublist _)))⟩
        · exact absurd h (by simp)
        · rcases ih h with ⟨p, hp⟩
          exact ⟨p, hp.cons _ |>.cons _ |>.cons _ |>.cons _⟩

theorem release_after_launch_dispatchLoop (rf lf : String → Bool) (sel : List Run)
    (id : String) (h : TickEvent.acquired id ∈ dispatchLoop rf lf sel) :
    List.Sublist
      [TickEvent.acquired id, TickEvent.launchRequested id, TickEvent.released id]
      (dispatchLoop rf lf sel) := by
  induction sel with
  | nil => simp [dispatchLoop] at h
  | cons run rest ih =>
    by_cases hr : rf run.run_id
    · rw [dispatchLoop, if_pos hr] at h
      simp at h
    · rw [dispatchLoop, if_neg hr] at h ⊢
      by_cases hl : lf run.run_id
      · rw [if_pos hl] at h ⊢
        simp only [List.mem_cons, List.not_mem_nil, or_false] at h
        rcases h with h | h | h | h
        · rcases TickEvent.acquired.inj h.symm with rfl
          exact List.Sublist.cons₂ _ (List.Sublist.cons _
            (List.Sublist.cons₂ _ (List.Sublist.cons₂ _ (List.nil_sublist _))))
        · exact absurd h (by simp)
        · exact absurd h (by simp)
        · exact absurd h (by simp)
      · rw [if_neg hl] at h ⊢
        simp only [List.mem_cons] at h
        rcases h with h | h | h | h | h
        · rcases TickEvent.acquired.inj h.symm with rfl
          exact List.Sublist.cons₂ _ (List.Sublist.cons _
            (List.Sublist.cons₂ _ (List.Sublist.cons₂ _ (List.nil_sublist _))))
        · exact absurd h (by simp)
        · exact absurd h (by simp)
        · exact absurd h (by simp)
        · exact ih h |>.cons _ |>.cons _ |>.cons _ |>.cons _

/-! ### Claims -/

/-- C1: in every tick the number of runs dispatched never exceeds
`max 0 (max_concurrent_runs - in_progress)`, and whenever that capacity is
positive, exactly `min capacity (number of queued runs)` runs are selected for
dispatch — in particular all queued runs when fewer exist than the capacity. -/
theorem C1_dispatch_bound_selection
    (max_concurrent_runs : Int) (in_progress : Nat) (store_queued : List Run)
    (resolveFails launchFails : String → Bool) :
    (dispatchedIds (run_iteration max_concurrent_runs in_progress store_queued
        resolveFails launchFails)).length
      ≤ (max 0 (max_concurrent_runs - in_progress)).toNat
    ∧ (0 < max_concurrent_runs - in_progress →
        (selected_runs max_concurrent_runs in_progress store_queued).length
          = min (max_concurrent_runs - in_progress).toNat store_queued.length) := by
  by_cases hm : max_concurrent_runs - (in_progress : Int) ≤ 0
  · constructor
    · rw [run_iteration]
      simp only [hm, if_true]
      simp [dispatchedIds]
    · intro hpos
      exact absurd hpos (not_lt.mpr hm)
  · have hpos : 0 < max_concurrent_runs - (in_progress : Int) := not_le.mp hm
    constructor
    · rw [run_iteration]
      simp only [hm, if_false]
      have h1 := (dispatchedIds_dispatchLoop_sublist resolveFails launchFails
        ((_priority_sort (_get_queued_runs store_queued)).take
          (max_concurrent_runs - in_progress).toNat)).length_le
      rw [List.length_map] at h1
      have h2 : ((_priority_sort (_get_queued_runs store_queued)).take
          (max_concurrent_runs - in_progress).toNat).length
            ≤ (max_concurrent_runs - in_progress).toNat := by
        rw [List.length_take]
        exact min_le_left _ _
      have hmax : max (0 : Int) (max_concurrent_runs - in_progress)
          = max_concurrent_runs - in_progress := max_eq_right hpos.le
      rw [hmax]
      calc (dispatchedIds (TickEvent.queueQueried ::
              dispatchLoop resolveFails launchFails _)).length
          = (dispatchedIds (dispatchLoop resolveFails launchFails _)).length := by
            simp [dispatchedIds]
        _ ≤ _ := le_trans h1 h2
    · intro _
      rw [selected_runs]
      simp only [hm, if_false]
      rw [List.length_take, _priority_sort_length, _get_queued_runs,
        List.length_reverse]

/-- C1 witness at a concrete tick: capacity 3, two queued runs. -/
theorem C1_dispatch_bound_selection_witness :
    (dispatchedIds (run_iteration 3 0
        [⟨"x", "jx", []⟩, ⟨"y", "jy", []⟩]
        (fun _ => false) (fun _ => false))).length
      ≤ (max 0 ((3 : Int) - (0 : Nat))).toNat
    ∧ (0 < (3 : Int) - (0 : Nat) →
        (selected_runs 3 0 [⟨"x", "jx", []⟩, ⟨"y", "jy", []⟩]).length
          = min ((3 : Int) - (0 : Nat)).toNat
              ([⟨"x", "jx", []⟩, ⟨"y", "jy", []⟩] : List Run).length) :=
  C1_dispatch_bound_selection 3 0 [⟨"x", "jx", []⟩, ⟨"y", "jy", []⟩]
    (fun _ => false) (fun _ => false)

/-- C2: when the in-progress count is at least `max_concurrent_runs`
(capacity at most zero, including negative capacity and
`max_concurrent_runs = 0`), the tick produces no effect at all: no run is
dispatched and the queued-runs query is never issued. -/
theorem C2_no_dispatch_when_full
    (max_concurrent_runs : Int) (in_progress : Nat) (store_queued : List Run)
    (resolveFails launchFails : String → Bool)
    (h : max_concurrent_runs ≤ in_progress) :
    dispatchedIds (run_iteration max_concurrent_runs in_progress store_queued
        resolveFails launchFails) = []
    ∧ TickEvent.queueQueried ∉ run_iteration max_concurrent_runs in_progress
        store_queued resolveFails launchFails := by
  have hm : max_concurrent_runs - (in_progress : Int) ≤ 0 := by omega
  rw [run_iteration]
  simp only [hm, if_true]
  exact ⟨rfl, List.not_mem_nil _⟩

/-- C2 witness: two in-progress runs against a maximum of two, one queued
run; nothing is dispatched and the queue is not queried. -/
theorem C2_no_dispatch_when_full_witness :
    dispatchedIds (run_iteration 2 2 [⟨"x", "jx", []⟩]
        (fun _ => false) (fun _ => false)) = []
    ∧ TickEvent.queueQueried ∉ run_iteration 2 2 [⟨"x", "jx", []⟩]
        (fun _ => false) (fun _ => false) :=
  C2_no_dispatch_when_full 2 2 [⟨"x", "jx", []⟩]
    (fun _ => false) (fun _ => false) (by norm_num)

/-- C3: stability of the priority sort — for every store answer (newest-first,
reversed once to oldest-first) and every priority value `p`, the subsequence of
runs resolving to priority `p` in the dispatch order equals their subsequence
in the original oldest-first enqueue order; hence any two runs of equal
resolved priority keep their oldest-first relative order. -/
theorem C3_equal_priority_fifo (store_queued : List Run) (p : Int) :
    (_priority_sort (_get_queued_runs store_queued)).filter
        (fun r => get_priority r == p)
      = (_get_queued_runs store_queued).filter (fun r => get_priority r == p) :=
  filter_priority_sort (_get_queued_runs store_queued) p

/-- C4: priority resolution is total and never raises — an absent tag and a
non-integer-parseable tag value both resolve to priority `0`, and a parseable
value resolves to its parsed integer. -/
theorem C4_get_priority_total (run : Run) :
    (run.tags.lookup PRIORITY_TAG = none → get_priority run = 0)
    ∧ (∀ v, run.tags.lookup PRIORITY_TAG = some v → pyInt v = none →
        get_priority run = 0)
    ∧ (∀ v n, run.tags.lookup PRIORITY_TAG = some v → pyInt v = some n →
        get_priority run = n) := by
  refine ⟨?_, ?_, ?_⟩
  · intro h
    rw [get_priority, h]
    rfl
  · intro v hv hn
    rw [get_priority, hv]
    simp [Option.getD, hn]
  · intro v n hv hn
    rw [get_priority, hv]
    simp [Option.getD, hn]

/-- C4 witness: a run without the tag, one with the value `"abc"`, and one
with the value `"7"` resolve to 0, 0 and 7. -/
theorem C4_get_priority_total_witness :
    get_priority ⟨"w1", "jw", []⟩ = 0
    ∧ get_priority ⟨"w2", "jw", [(PRIORITY_TAG, "abc")]⟩ = 0
    ∧ get_priority ⟨"w3", "jw", [(PRIORITY_TAG, "7")]⟩ = 7 :=
  ⟨(C4_get_priority_total ⟨"w1", "jw", []⟩).1 rfl,
   (C4_get_priority_total ⟨"w2", "jw", [(PRIORITY_TAG, "abc")]⟩).2.1 "abc" rfl rfl,
   (C4_get_priority_total ⟨"w3", "jw", [(PRIORITY_TAG, "7")]⟩).2.2 "7" 7 rfl rfl⟩

/-- C5: concrete scenario — queued runs oldest-first are A(tag "10"),
B(no tag), C(tag "abc"), D(tag "10"), so the store answers newest-first
[D, C, B, A]; with `max_concurrent_runs = 3` and no in-progress runs the
selection (and dispatch) order is exactly [A, D, B], and C is not selected. -/
theorem C5_concrete_scenario :
    (selected_runs 3 0 [runD, runC, runB, runA]).map Run.run_id = ["A", "D", "B"]
    ∧ dispatchedIds (run_iteration 3 0 [runD, runC, runB, runA]
        (fun _ => false) (fun _ => false)) = ["A", "D", "B"]
    ∧ "C" ∉ (selected_runs 3 0 [runD, runC, runB, runA]).map Run.run_id := by
  refine ⟨by decide, by decide, by decide⟩

/-- C6: for every run whose launch is requested in a tick, the dequeue event
for that run precedes the launch request in the tick trace — also when that
launch itself fails. -/
theorem C6_dequeue_before_launch
    (max_concurrent_runs : Int) (in_progress : Nat) (store_queued : List Run)
    (resolveFails launchFails : String → Bool) (id : String)
    (h : TickEvent.launchRequested id ∈ run_iteration max_concurrent_runs
      in_progress store_queued resolveFails launchFails) :
    ∃ p, List.Sublist
      [TickEvent.dequeueEvent id p, TickEvent.launchRequested id]
      (run_iteration max_concurrent_runs in_progress store_queued
        resolveFails launchFails) := by
  by_cases hm : max_concurrent_runs - (in_progress : Int) ≤ 0
  · rw [run_iteration] at h
    simp only [hm, if_true] at h
    simp at h
  · rw [run_iteration] at h ⊢
    simp only [hm, if_false] at h ⊢
    rw [List.mem_cons] at h
    rcases h with h | h
    · exact absurd h (by simp)
    · rcases dequeue_before_launch_dispatchLoop _ _ _ _ h with ⟨p, hp⟩
      exact ⟨p, hp.cons _⟩

/-- C6 witness: one queued run whose launch fails; its dequeue event still
precedes its launch request in the trace. -/
theorem C6_dequeue_before_launch_witness :
    ∃ p, List.Sublist
      [TickEvent.dequeueEvent "A" p, TickEvent.launchRequested "A"]
      (run_iteration 3 0 [runA] (fun _ => false) (fun _ => true)) :=
  C6_dequeue_before_launch 3 0 [runA] (fun _ => false) (fun _ => true) "A"
    (by decide)

/-- C7: the dispatch loop has no per-run error isolation — with two selected
runs and the launch of the first one failing, the tick trace stops at the
first run: the second run receives neither a dequeue event nor a launch
request, contradicting the required continue-past-failure contract. -/
theorem C7_loop_truncates_on_failure :
    run_iteration 2 0 [⟨"r2", "j2", []⟩, ⟨"r1", "j1", []⟩]
        (fun _ => false) (fun id => id == "r1")
      = [TickEvent.queueQueried, TickEvent.acquired "r1",
         TickEvent.dequeueEvent "r1" "j1", TickEvent.launchRequested "r1",
         TickEvent.released "r1"]
    ∧ (selected_runs 2 0 [⟨"r2", "j2", []⟩, ⟨"r1", "j1", []⟩]).map Run.run_id
        = ["r1", "r2"]
    ∧ dispatchedIds (run_iteration 2 0 [⟨"r2", "j2", []⟩, ⟨"r1", "j1", []⟩]
        (fun _ => false) (fun id => id == "r1")) = ["r1"]
    ∧ dequeuedIds (run_iteration 2 0 [⟨"r2", "j2", []⟩, ⟨"r1", "j1", []⟩]
        (fun _ => false) (fun id => id == "r1")) = ["r1"] := by
  refine ⟨by decide, by decide, by decide, by decide⟩

/-- C8: every scoped pipeline handle acquired in a tick is released after the
launch attempt of its run, on every exit path — successful launch, failing
launch, and early loop termination alike. -/
theorem C8_handle_released
    (max_concurrent_runs : Int) (in_progress : Nat) (store_queued : List Run)
    (resolveFails launchFails : String → Bool) (id : String)
    (h : TickEvent.acquired id ∈ run_iteration max_concurrent_runs
      in_progress store_queued resolveFails launchFails) :
    List.Sublist
      [TickEvent.acquired id, TickEvent.launchRequested id,
       TickEvent.released id]
      (run_iteration max_concurrent_runs in_progress store_queued
        resolveFails launchFails) := by
  by_cases hm : max_concurrent_runs - (in_progress : Int) ≤ 0
  · rw [run_iteration] at h
    simp only [hm, if_true] at h
    simp at h
  · rw [run_iteration] at h ⊢
    simp only [hm, if_false] at h ⊢
    rw [List.mem_cons] at h
    rcases h with h | h
    · exact absurd h (by simp)
    · exact (release_after_launch_dispatchLoop _ _ _ _ h).cons _

/-- C8 witness: a tick whose only launch fails; the acquired handle is still
released after the launch attempt. -/
theorem C8_handle_released_witness :
    List.Sublist
      [TickEvent.acquired "A", TickEvent.launchRequested "A",
       TickEvent.released "A"]
      (run_iteration 3 0 [runA] (fun _ => false) (fun _ => true)) :=
  C8_handle_released 3 0 [runA] (fun _ => false) (fun _ => true) "A" (by decide)

/-! ### Congruence of the selection under id- and priority-preserving
replacement of runs -/

theorem insertByPriority_congr {x y : Run} {l l' : List Run}
    (hxy : SameIdPriority x y) (h : List.Forall₂ SameIdPriority l l') :
    List.Forall₂ SameIdPriority (insertByPriority x l) (insertByPriority y l') := by
  induction h with
  | nil => exact List.Forall₂.cons hxy List.Forall₂.nil
  | cons hab hrest ih =>
    rename_i a b as bs
    by_cases hc : get_priority a ≤ get_priority x
    · have hc' : get_priority b ≤ get_priority y := by
        rw [← hab.2, ← hxy.2]
        exact hc
      rw [insertByPriority, if_pos hc, insertByPriority, if_pos hc']
      exact List.Forall₂.cons hxy (List.Forall₂.cons hab hrest)
    · have hc' : ¬ get_priority b ≤ get_priority y := by
        rw [← hab.2, ← hxy.2]
        exact hc
      rw [insertByPriority, if_neg hc, insertByPriority, if_neg hc']
      exact List.Forall₂.cons hab ih

theorem _priority_sort_congr {l l' : List Run}
    (h : List.Forall₂ SameIdPriority l l') :
    List.Forall₂ SameIdPriority (_priority_sort l) (_priority_sort l') := by
  induction h with
  | nil => exact List.Forall₂.nil
  | cons hab hrest ih =>
    rw [_priority_sort, _priority_sort]
    exact insertByPriority_congr hab ih

theorem forall₂_map_run_id {l l' : List Run}
    (h : List.Forall₂ SameIdPriority l l') :
    l.map Run.run_id = l'.map Run.run_id := by
  induction h with
  | nil => rfl
  | cons hab hrest ih => simp [hab.1, ih]

theorem selected_runs_congr (max_concurrent_runs : Int) (in_progress : Nat)
    {store store' : List Run}
    (h : List.Forall₂ SameIdPriority store store') :
    (selected_runs max_concurrent_runs in_progress store).map Run.run_id
      = (selected_runs max_concurrent_runs in_progress store').map Run.run_id := by
  by_cases hm : max_concurrent_runs - (in_progress : Int) ≤ 0
  · rw [selected_runs, selected_runs]
    simp [hm]
  · rw [selected_runs, selected_runs]
    simp only [hm, if_false, _get_queued_runs]
    exact forall₂_map_run_id
      (List.forall₂_take _ (_priority_sort_congr (List.rel_reverse h)))

theorem zeroPriorityTag_priority {r : Run} (hr : ZeroPriorityTag r) :
    get_priority r = 0 := by
  rcases hr with h0 | h0 | ⟨v, hv, hn⟩
  · rw [get_priority, h0]
    rfl
  · rw [get_priority, h0]
    rfl
  · rw [get_priority, hv]
    simp [Option.getD, hn]

/-- C9: the selection outcome is unchanged when one queued run has its
priority tag replaced among the variants resolving to priority `0`: tag
absent, tag value `"0"`, or a tag value that does not parse as an integer —
the selection cannot distinguish them. -/
theorem C9_zero_priority_tag_invariance
    (max_concurrent_runs : Int) (in_progress : Nat)
    (pre post : List Run) (r r' : Run)
    (hid : r.run_id = r'.run_id)
    (hr : ZeroPriorityTag r) (hr' : ZeroPriorityTag r') :
    (selected_runs max_concurrent_runs in_progress (pre ++ r :: post)).map
        Run.run_id
      = (selected_runs max_concurrent_runs in_progress (pre ++ r' :: post)).map
          Run.run_id := by
  apply selected_runs_congr
  refine List.rel_append (List.forall₂_same.2 fun x _ => ⟨rfl, rfl⟩)
    (List.Forall₂.cons ⟨hid, ?_⟩ (List.forall₂_same.2 fun x _ => ⟨rfl, rfl⟩))
  rw [zeroPriorityTag_priority hr, zeroPriorityTag_priority hr']

/-- C9 witness: replacing the tag value `"abc"` of run C by an absent tag
leaves the selection of the concrete scenario unchanged. -/
theorem C9_zero_priority_tag_invariance_witness :
    (selected_runs 3 0 ([runD] ++ runC :: [runB, runA])).map Run.run_id
      = (selected_runs 3 0 ([runD] ++ ⟨"C", "job_c", []⟩ :: [runB, runA])).map
          Run.run_id :=
  C9_zero_priority_tag_invariance 3 0 [runD] [runB, runA] runC ⟨"C", "job_c", []⟩
    rfl (Or.inr (Or.inr ⟨"abc", rfl, rfl⟩)) (Or.inl rfl)

theorem selected_map_subperm (max_concurrent_runs : Int) (in_progress : Nat)
    (store_queued : List Run) :
    List.Subperm ((selected_runs max_concurrent_runs in_progress
        store_queued).map Run.run_id)
      ((_get_queued_runs store_queued).map Run.run_id) := by
  by_cases hm : max_concurrent_runs - (in_progress : Int) ≤ 0
  · rw [selected_runs]
    simp only [hm, if_true, List.map_nil]
    exact List.nil_subperm
  · rw [selected_runs]
    simp only [hm, if_false]
    have h1 : List.Sublist
        (((_priority_sort (_get_queued_runs store_queued)).take
          (max_concurrent_runs - in_progress).toNat).map Run.run_id)
        ((_priority_sort (_get_queued_runs store_queued)).map Run.run_id) :=
      (List.take_sublist _ _).map Run.run_id
    have h2 : List.Perm
        ((_priority_sort (_get_queued_runs store_queued)).map Run.run_id)
        ((_get_queued_runs store_queued).map Run.run_id) :=
      (_priority_sort_perm (_get_queued_runs store_queued)).map Run.run_id
    exact h1.subperm.trans h2.subperm

/-- C10: every run for which a dequeue event is recorded or a launch is
requested in a tick was an element of the queued-status query result taken at
the start of that tick; the dispatched sequence is a subpermutation of the
fetched queued run ids, hence duplicate-free whenever the fetched ids are —
no run is dispatched twice in a tick. -/
theorem C10_dispatch_subset_nodup
    (max_concurrent_runs : Int) (in_progress : Nat) (store_queued : List Run)
    (resolveFails launchFails : String → Bool) :
    (∀ id,
      ((∃ p, TickEvent.dequeueEvent id p ∈ run_iteration max_concurrent_runs
          in_progress store_queued resolveFails launchFails)
        ∨ TickEvent.launchRequested id ∈ run_iteration max_concurrent_runs
            in_progress store_queued resolveFails launchFails) →
      id ∈ (_get_queued_runs store_queued).map Run.run_id)
    ∧ List.Subperm
        (dispatchedIds (run_iteration max_concurrent_runs in_progress
          store_queued resolveFails launchFails))
        ((_get_queued_runs store_queued).map Run.run_id)
    ∧ (((_get_queued_runs store_queued).map Run.run_id).Nodup →
        (dispatchedIds (run_iteration max_concurrent_runs in_progress
          store_queued resolveFails launchFails)).Nodup) := by
  by_cases hm : max_concurrent_runs - (in_progress : Int) ≤ 0
  · refine ⟨?_, ?_, ?_⟩
    · intro id hid
      rw [run_iteration] at hid
      simp only [hm, if_true] at hid
      rcases hid with ⟨p, hp⟩ | h
      · simp at hp
      · simp at h
    · rw [run_iteration]
      simp only [hm, if_true]
      exact List.nil_subperm
    · intro _
      rw [run_iteration]
      simp only [hm, if_true]
      exact List.nodup_nil
  · have hsel := selected_map_subperm max_concurrent_runs in_progress store_queued
    rw [selected_runs] at hsel
    simp only [hm, if_false] at hsel
    have hdisp : List.Subperm
        (dispatchedIds (run_iteration max_concurrent_runs in_progress
          store_queued resolveFails launchFails))
        ((_get_queued_runs store_queued).map Run.run_id) := by
      rw [run_iteration]
      simp only [hm, if_false]
      have h0 : dispatchedIds (TickEvent.queueQueried ::
          dispatchLoop resolveFails launchFails
            ((_priority_sort (_get_queued_runs store_queued)).take
              (max_concurrent_runs - in_progress).toNat))
          = dispatchedIds (dispatchLoop resolveFails launchFails
            ((_priority_sort (_get_queued_runs store_queued)).take
              (max_concurrent_runs - in_progress).toNat)) := by
        simp [dispatchedIds]
      rw [h0]
      exact ((dispatchedIds_dispatchLoop_sublist _ _ _).subperm).trans hsel
    refine ⟨?_, hdisp, ?_⟩
    · intro id hid
      rw [run_iteration] at hid
      simp only [hm, if_false] at hid
      have hsub : id ∈ ((_priority_sort (_get_queued_runs store_queued)).take
          (max_concurrent_runs - in_progress).toNat).map Run.run_id →
          id ∈ (_get_queued_runs store_queued).map Run.run_id :=
        fun hmem => hsel.subset hmem
      rcases hid with ⟨p, hp⟩ | h
      · rw [List.mem_cons] at hp
        rcases hp with hp | hp
        · exact absurd hp (by simp)
        · refine hsub ((dequeuedIds_dispatchLoop_sublist resolveFails launchFails _).subset ?_)
          exact List.mem_filterMap.2 ⟨TickEvent.dequeueEvent id p, hp, rfl⟩
      · rw [List.mem_cons] at h
        rcases h with h | h
        · exact absurd h (by simp)
        · refine hsub ((dispatchedIds_dispatchLoop_sublist resolveFails launchFails _).subset ?_)
          exact List.mem_filterMap.2 ⟨TickEvent.launchRequested id, h, rfl⟩
    · intro hnd
      rcases hdisp with ⟨l, hperm, hsub⟩
      exact hperm.nodup_iff.mp (hnd.sublist hsub)

/-- C10 witness: the concrete scenario tick dispatches a duplicate-free
subset of the fetched queued run ids. -/
theorem C10_dispatch_subset_nodup_witness :
    ("A" ∈ (_get_queued_runs [runD, runC, runB, runA]).map Run.run_id)
    ∧ (dispatchedIds (run_iteration 3 0 [runD, runC, runB, runA]
        (fun _ => false) (fun _ => false))).Nodup :=
  ⟨(C10_dispatch_subset_nodup 3 0 [runD, runC, runB, runA]
      (fun _ => false) (fun _ => false)).1 "A" (Or.inr (by decide)),
   (C10_dispatch_subset_nodup 3 0 [runD, runC, runB, runA]
      (fun _ => false) (fun _ => false)).2.2 (by decide)⟩

end QueuedRunCoordinator
